import Mathlib

/-!
# input_wyze: frame relay worker of the WYZE CAM input plugin

Shallow embedding of `plugins/input_wyze/input_wyze.cpp`.

* The file's statics (`pglobal`, `plugin_number`, `buffer_`, `first_run`, ...) are the
  fields of `State`; every C function is a function on `State`.
* Calls into libc / pthreads / the shared-memory accessor are appended to `State.trace`
  in program order, so statements about ordering are statements about that list.
* Values the environment decides (what `getopt_long_only` returns, what `malloc` returns,
  what `getImageBuffer` returns and leaves in `buffer_`, the clock, the host's `stop` flag)
  are arguments of the functions.
* A path that ends the process (`exit(EXIT_FAILURE)`), dereferences a null pointer, or
  makes `memcpy` leave mapped memory ends in `Except.error`, which carries the statics and
  the log as they are at that point.
-/

set_option linter.unusedVariables false

namespace InputWyze

/-! ## Data model -/

/-- Modelled from the spec: `struct timeval` of the C library (the slot's `timestamp`,
"capture time of the current frame"); its declaration is not part of the source file. -/
structure timeval where
  tv_sec : Int
  tv_usec : Int
deriving DecidableEq

/-- A heap block as returned by `malloc(cap)`. `bytes i` is the byte at offset `i` from the
block's base address; offsets `≥ cap` are the memory that lies behind the block, so a copy
that runs over the end of the block is visible as a change of `bytes` at such an offset.
Of the memory behind the block the first `behind` bytes are mapped and writable (other heap
data); a store at an offset `≥ cap + behind` hits unmapped memory. `behind = 0` is a block
that ends at the end of its mapping. -/
structure Block where
  cap : Nat
  bytes : Nat → UInt8
  behind : Nat

/-- Modelled from the spec: the host's `input` structure of `mjpg_streamer.h` (missing from
the sources), the "Shared Frame Slot": `buf` (a pointer, `none` is `NULL`), `size`,
`timestamp`. Its mutex `db` and condition variable `db_update` only show up as events. -/
structure input where
  buf : Option Block
  size : Int
  timestamp : timeval

/-- Modelled from the spec: the host's `globals` structure of `mjpg_streamer.h` (missing
from the sources): the array `in[]` of input slots, indexed by a C `int`. The `stop` flag
is written by the host while the worker runs, so it is an input of `worker_thread`. -/
structure globals where
  in_ : Int → input

/-- Modelled from the spec: the host's `input_parameter` structure of `mjpg_streamer.h`
(missing from the sources): the argument vector and the pointer to the host globals. -/
structure input_parameter where
  argv : List String
  global : globals

/-- Calls and slot writes, in program order. The `Int` argument of the slot events is the
index into `pglobal->in[]`. -/
inductive Event where
  | mutex_init
  | iprint (msg : String)
  | help
  | malloc (n : Nat)
  | free (slot : Int)
  | eprint (msg : String)
  | pthread_create
  | pthread_detach
  | pthread_cancel
  | cleanup_push
  | cleanup_pop (execute : Int)
  | mutex_lock (slot : Int)
  | getImageBuffer (maxsize : Int) (ret : Int)
  | set_size (slot : Int) (v : Int)
  | memcpy (slot : Int) (n : Nat)
  | gettimeofday
  | set_timestamp (slot : Int) (t : timeval)
  | printf_frame (size : Int)
  | cond_broadcast (slot : Int)
  | mutex_unlock (slot : Int)
deriving DecidableEq

/-- The statics of `input_wyze.cpp` (lines 54-61 and 261) and the event log. -/
structure State where
  /-- The `static globals *pglobal`; `none` is `NULL`, `some g` is a pointer to the host globals `g`. -/
  pglobal : Option globals
  /-- The `static int plugin_number`. -/
  plugin_number : Int
  /-- The `static unsigned char first_run = 1` of `worker_cleanup`. -/
  first_run : Nat
  /-- The scratch array `char buffer_[maxsize_]`, byte at each offset. -/
  buffer_ : Nat → UInt8
  /-- The number of bytes directly behind the array `buffer_` that are mapped and readable
  (the rest of the data segment); a load at an offset `≥ maxsize_ + buffer_behind` from the
  base of `buffer_` hits unmapped memory. -/
  buffer_behind : Nat
  /-- Whether `controls_mutex` has been initialised. -/
  controls_mutex : Bool
  /-- Whether `worker` holds a created thread. -/
  worker : Bool
  trace : List Event

/-- Ways a call does not return to its caller, each with the statics and the log at the
point where control is lost. -/
inductive Abort where
  /-- The code called `exit(EXIT_FAILURE)`. -/
  | exit_failure (s : State)
  /-- A null pointer was dereferenced, or `memcpy` left mapped memory. -/
  | segfault (s : State)
  /-- The relay loop has consumed all stop-flag observations given to it without seeing
  the flag set: it is still running. -/
  | running (s : State)

/-- The statics and the log where the call was aborted. -/
def Abort.state : Abort → State
  | .exit_failure s => s
  | .segfault s => s
  | .running s => s

/-- The statics as the loader leaves them: zero-initialised, `first_run = 1`; the loader
also decides how much readable memory lies behind `buffer_`. -/
def State.initial (buffer_behind : Nat) : State :=
  { pglobal := none, plugin_number := 0, first_run := 1, buffer_ := fun _ => 0,
    buffer_behind := buffer_behind, controls_mutex := false, worker := false, trace := [] }

/-- Source line 59: `const int maxsize_ = 400 * 1024;` -/
def maxsize_ : Int := 400 * 1024

/-- Source line 51: `#define INPUT_PLUGIN_NAME "WYZE CAM input plugin"` -/
def INPUT_PLUGIN_NAME : String := "WYZE CAM input plugin"

/-- Append events to the log. -/
def log (s : State) (es : List Event) : State :=
  { s with trace := s.trace ++ es }

/-- Store `x` at `pglobal->in[i]`. -/
def set_in (g : globals) (i : Int) (x : input) : globals :=
  { g with in_ := fun j => if j = i then x else g.in_ j }

/-- The conversion of a C `int` to `size_t` on a target whose `size_t` has `w` bits. -/
def size_t_of_int (w : Nat) (v : Int) : Nat :=
  (v % 2 ^ w).toNat

/-- The largest size an object, and so a run of mapped memory, can have on a target with
`w`-bit `size_t`: `PTRDIFF_MAX = 2^(w-1) - 1`. -/
def PTRDIFF_MAX (w : Nat) : Nat :=
  2 ^ (w - 1) - 1

/-- Whether `memcpy` of `n` bytes runs to its end: the `n` bytes at the destination are
mapped and writable (`dst_mapped` bytes are), the `n` bytes at the source are mapped and
readable (`src_mapped` bytes are), and `n` is a length memory can have at all. Otherwise
the call runs into unmapped memory and the process dies inside it. -/
def memcpy_completes (w dst_mapped src_mapped n : Nat) : Bool :=
  decide (n ≤ dst_mapped) && decide (n ≤ src_mapped) && decide (n ≤ PTRDIFF_MAX w)

/-- The call `memcpy(dst, src, n)` of line 234, `dst` the base of the block `dst`, `src` the
base of a run of `src_mapped` readable bytes. When it completes, the `n` bytes from `src`
have replaced the first `n` bytes at `dst`, whether they lie in the block or behind it;
`none` when the call faults. -/
def memcpy (w : Nat) (dst : Block) (src : Nat → UInt8) (src_mapped n : Nat) : Option Block :=
  if memcpy_completes w (dst.cap + dst.behind) src_mapped n then
    some { dst with bytes := fun i => if i < n then src i else dst.bytes i }
  else
    none

/-! ## Environment -/

/-- What one call of `getopt_long_only` (libc) hands back to `input_init`: the return value
`c`, the value it left in `option_index`, and `optarg`. -/
structure GetoptResult where
  c : Int
  option_index : Int
  optarg : Option String

/-- An option as `getopt_long_only` classifies it against the table `long_options` of
`input_init` (source lines 98-103) with the empty short-option string. -/
inductive Opt where
  | h
  | help
  | r (arg : String)
  | resolution (arg : String)
  /-- Anything for which `getopt_long_only` answers `'?'`. -/
  | unrecognized
deriving DecidableEq

/-- The libc contract of `getopt_long_only` for the table of `input_init`: every entry has
`flag = 0` and `val = 0`, so a match returns `0` and stores the entry's position in
`option_index`; otherwise the answer is `'?'` (63) and `option_index` keeps the `0` it was
initialised with at source line 97. -/
def getopt_long_only : Opt → GetoptResult
  | .h => { c := 0, option_index := 0, optarg := none }
  | .help => { c := 0, option_index := 1, optarg := none }
  | .r a => { c := 0, option_index := 2, optarg := some a }
  | .resolution a => { c := 0, option_index := 3, optarg := some a }
  | .unrecognized => { c := 63, option_index := 0, optarg := none }

/-- Modelled from the spec: `SharedMem::getImageBuffer` of `sharedmem.h` (missing from the
sources), the "Frame Source" `getLatestFrame(destinationBuffer, maxCapacity) -> bytesWritten`.
One poll of an iteration: `memlen` is the `int` the call returns, `scratch` is the content
of `buffer_` when it returns, `now` is what `gettimeofday` would store. -/
structure Poll where
  memlen : Int
  scratch : Nat → UInt8
  now : timeval

/-! ## The plugin's functions -/

/-- Source lines 197-207, `help`: prints the usage text. -/
def help (s : State) : State :=
  log s [.help]

/-- Source lines 96-150 of `input_init`: the option loop. `rs` are the answers of the
successive `getopt_long_only` calls; when they are used up the next answer is `-1`.
The result is `some 1` where the code does `return 1`, and `none` where it leaves the
loop by `break`. -/
def option_loop (s : State) : List GetoptResult → Option Int × State
  | [] => (none, s)
  | r :: rest =>
    -- no more options to parse
    if r.c = -1 then (none, s)
    -- unrecognized option
    else if r.c = 63 then (some 1, help s)
    -- case 0, 1: h, help
    else if r.option_index = 0 ∨ r.option_index = 1 then (some 1, help s)
    -- case 2, 3
    else if r.option_index = 2 ∨ r.option_index = 3 then option_loop s rest
    -- case 4, 5
    else if r.option_index = 4 ∨ r.option_index = 5 then option_loop s rest
    -- case 6, 7 (the call of parse_resolution_opt is commented out)
    else if r.option_index = 6 ∨ r.option_index = 7 then option_loop s rest
    -- default
    else (some 1, help s)

/-- Source lines 79-156, `input_init`. `mutex_rc` is the result of `pthread_mutex_init`,
`rs` the answers of `getopt_long_only`. Returns the return value, the parameter block
(whose `argv[0]` is overwritten) and the new statics. -/
def input_init (s : State) (param : input_parameter) (plugin_no : Int) (mutex_rc : Int)
    (rs : List GetoptResult) : Except Abort (Int × input_parameter × State) :=
  let s1 := log s [.mutex_init]
  if mutex_rc ≠ 0 then
    -- IPRINT("could not initialize mutex variable\n"); exit(EXIT_FAILURE);
    .error (.exit_failure (log s1 [.iprint "could not initialize mutex variable\n"]))
  else
    let s2 := { s1 with controls_mutex := true }
    let param1 := { param with argv := param.argv.set 0 INPUT_PLUGIN_NAME }
    match option_loop s2 rs with
    | (some rc, s3) => .ok (rc, param1, s3)
    | (none, s3) =>
      -- pglobal = param->global; return 0;
      .ok (0, param1, { s3 with pglobal := some param1.global })

/-- Source lines 163-168, `input_stop`. -/
def input_stop (s : State) (id : Int) : Int × State :=
  (0, log s [.pthread_cancel])

/-- Source lines 175-190, `input_run`. `fresh` is what `malloc(256 * 1024)` returns (`none`
for `NULL`, otherwise the content of the new block), `behind` the number of writable bytes
behind the new block, `create_rc` the result of `pthread_create`. -/
def input_run (s : State) (id : Int) (fresh : Option (Nat → UInt8)) (behind : Nat)
    (create_rc : Int) : Except Abort (Int × State) :=
  match s.pglobal with
  | none => .error (.segfault s)
  | some g =>
    let blk : Option Block :=
      fresh.map fun b => { cap := 256 * 1024, bytes := b, behind := behind }
    let g1 := set_in g id { g.in_ id with buf := blk }
    let s1 := { log s [.malloc (256 * 1024)] with pglobal := some g1 }
    if (g1.in_ id).buf.isNone then
      -- fprintf(stderr, "could not allocate memory\n"); exit(EXIT_FAILURE);
      .error (.exit_failure (log s1 [.eprint "could not allocate memory\n"]))
    else if create_rc ≠ 0 then
      -- free(pglobal->in[id].buf); fprintf(stderr, ...); exit(EXIT_FAILURE);
      .error (.exit_failure
        (log s1 [.pthread_create, .free id, .eprint "could not start worker thread\n"]))
    else
      .ok (0, { log s1 [.pthread_create, .pthread_detach] with worker := true })

/-- Source lines 221-246: one pass through the body of the `while` loop of `worker_thread`
on a target with `w`-bit `size_t`. -/
def worker_iteration (w : Nat) (s : State) (p : Poll) : Except Abort State :=
  match s.pglobal with
  | none => .error (.segfault s)
  | some g =>
    let n := s.plugin_number
    -- (the local `timeout` of line 221 is written and never read)
    -- pthread_mutex_lock(&pglobal->in[plugin_number].db);
    let s1 := log s [.mutex_lock n]
    -- int memlen = mem.getImageBuffer((void*)buffer_, maxsize_);
    let s2 := { log s1 [.getImageBuffer maxsize_ p.memlen] with buffer_ := p.scratch }
    let memlen := p.memlen
    if memlen ≠ 0 then
      -- pglobal->in[plugin_number].size = memlen;
      let g1 := set_in g n { g.in_ n with size := memlen }
      let s3 := { log s2 [.set_size n memlen] with pglobal := some g1 }
      -- memcpy(pglobal->in[plugin_number].buf, buffer_, memlen);
      let len := size_t_of_int w memlen
      let s4 := log s3 [.memcpy n len]
      match (g1.in_ n).buf with
      | none => .error (.segfault s4)
      | some b =>
        match memcpy w b s3.buffer_ (maxsize_.toNat + s3.buffer_behind) len with
        | none => .error (.segfault s4)
        | some b1 =>
          let g2 := set_in g1 n { g1.in_ n with buf := some b1 }
          let s5 := { s4 with pglobal := some g2 }
          -- gettimeofday(&timestamp, NULL);
          let timestamp := p.now
          let s6 := log s5 [.gettimeofday]
          -- pglobal->in[plugin_number].timestamp = timestamp;
          let g3 := set_in g2 n { g2.in_ n with timestamp := timestamp }
          let s7 := { log s6 [.set_timestamp n timestamp] with pglobal := some g3 }
          -- printf("frame (size: %d)\n", pglobal->in[plugin_number].size);
          let s8 := log s7 [.printf_frame (g3.in_ n).size]
          -- pthread_cond_broadcast(&pglobal->in[plugin_number].db_update);
          let s9 := log s8 [.cond_broadcast n]
          -- pthread_mutex_unlock(&pglobal->in[plugin_number].db);
          .ok (log s9 [.mutex_unlock n])
    else
      .ok (log s2 [.mutex_unlock n])

/-- Source lines 260-273, `worker_cleanup`. -/
def worker_cleanup (s : State) : Except Abort State :=
  if s.first_run = 0 then
    .ok s
  else
    let s1 := { s with first_run := 0 }
    match s1.pglobal with
    | none => .error (.segfault s1)
    | some g =>
      if (g.in_ s1.plugin_number).buf.isSome then
        .ok (log s1 [.free s1.plugin_number])
      else
        .ok s1

/-- The first `n` passes through the loop body, starting with pass number `i`. -/
def iterations (w : Nat) (polls : Nat → Poll) : Nat → Nat → State → Except Abort State
  | _, 0, s => .ok s
  | i, n + 1, s =>
    match worker_iteration w s (polls i) with
    | .error e => .error e
    | .ok s1 => iterations w polls (i + 1) n s1

/-- The cleanup handler `worker_cleanup` invoked `n` times in a row. -/
def cleanups : Nat → State → Except Abort State
  | 0, s => .ok s
  | n + 1, s =>
    match worker_cleanup s with
    | .error e => .error e
    | .ok s1 => cleanups n s1

/-! ## Observations on states and event logs -/

/-- The worker can run on `s`: `pglobal` is set and the buffer pointer of the slot the
worker uses is not `NULL`. -/
def ready (s : State) : Bool :=
  match s.pglobal with
  | none => false
  | some g => (g.in_ s.plugin_number).buf.isSome

/-- The slot `pglobal->in[plugin_number]` the worker uses. -/
def slot (s : State) : Option input :=
  s.pglobal.map fun g => g.in_ s.plugin_number

/-- The number of mapped, writable bytes from the base of the buffer of the slot the worker
uses (`0` when there is no such buffer). -/
def slot_mapped (s : State) : Nat :=
  match (slot s).bind fun sl => sl.buf with
  | some b => b.cap + b.behind
  | none => 0

/-- The copy a pass on `s` with the poll `p` makes, if it makes one, stays in mapped memory:
either the read returns `0` (no copy), or `memcpy` of the converted length completes. -/
def copy_fits (w : Nat) (s : State) (p : Poll) : Bool :=
  p.memlen == 0 ||
    memcpy_completes w (slot_mapped s) (maxsize_.toNat + s.buffer_behind)
      (size_t_of_int w p.memlen)

/-- The statics and the log a call ends with, whether it returns or is aborted. -/
def outcome_state : Except Abort State → State
  | .ok s => s
  | .error a => a.state

def isBroadcast : Event → Bool
  | .cond_broadcast _ => true
  | _ => false

def isRead : Event → Bool
  | .getImageBuffer _ _ => true
  | _ => false

def isFree : Event → Bool
  | .free _ => true
  | _ => false

/-- Events that store into the slot's `size`, `buf` memory or `timestamp`. -/
def isSlotWrite : Event → Bool
  | .set_size _ _ => true
  | .memcpy _ _ => true
  | .set_timestamp _ _ => true
  | _ => false

/-- The events of one pass that does not publish. -/
def skip_events (n : Int) (p : Poll) : List Event :=
  [.mutex_lock n, .getImageBuffer maxsize_ p.memlen, .mutex_unlock n]

/-- The events of one pass that takes the publish branch and dies in `memcpy`. -/
def fault_events (w : Nat) (n : Int) (p : Poll) : List Event :=
  [.mutex_lock n, .getImageBuffer maxsize_ p.memlen, .set_size n p.memlen,
   .memcpy n (size_t_of_int w p.memlen)]

/-- The events of one pass that publishes. -/
def publish_events (w : Nat) (n : Int) (p : Poll) : List Event :=
  [.mutex_lock n, .getImageBuffer maxsize_ p.memlen, .set_size n p.memlen,
   .memcpy n (size_t_of_int w p.memlen), .gettimeofday, .set_timestamp n p.now,
   .printf_frame p.memlen, .cond_broadcast n, .mutex_unlock n]

/-! ## Concrete states -/

def blank_slot : input :=
  { buf := none, size := 0, timestamp := { tv_sec := 0, tv_usec := 0 } }

/-- Host globals in which no slot has a buffer yet. -/
def host_globals : globals :=
  { in_ := fun _ => blank_slot }

def host_param : input_parameter :=
  { argv := ["input_wyze.so"], global := host_globals }

/-- The statics after `input_init` without options followed by `input_run` on channel `id`,
`malloc` having returned a zero-filled block with `behind` writable bytes behind it, in a
process with `buffer_behind` readable bytes behind `buffer_`. -/
def started_with (id : Int) (behind buffer_behind : Nat) : State :=
  { pglobal := some (set_in host_globals id
      { blank_slot with
        buf := some { cap := 256 * 1024, bytes := fun _ => 0, behind := behind } }),
    plugin_number := 0, first_run := 1, buffer_ := fun _ => 0,
    buffer_behind := buffer_behind, controls_mutex := true, worker := true,
    trace := [.mutex_init, .malloc (256 * 1024), .pthread_create, .pthread_detach] }

/-- The started plugin in a process where a mebibyte of other heap data lies behind the slot
buffer and a mebibyte of other data behind `buffer_`. -/
def started (id : Int) : State :=
  started_with id (1024 * 1024) (1024 * 1024)

/-- A poll that returns `memlen` and leaves the byte `fill` at every offset of the scratch
buffer, at time `t` seconds. -/
def frame (memlen : Int) (fill : UInt8) (t : Int) : Poll :=
  { memlen := memlen, scratch := fun _ => fill, now := { tv_sec := t, tv_usec := 0 } }

/-- The option is one for which `input_init` gives up: a help option or an unrecognized one. -/
def Opt.aborts : Opt → Bool
  | .h => true
  | .help => true
  | .unrecognized => true
  | _ => false

/-- The option with the value of its argument forgotten. -/
def Opt.erase_arg : Opt → Opt
  | .r _ => .r ""
  | .resolution _ => .resolution ""
  | o => o

def isUnlock : Event → Bool
  | .mutex_unlock _ => true
  | _ => false

/-- Scanning the log from a point where the slot mutex is held or not (`held`): every event
selected by `P` happens while the mutex is held. -/
def guarded (P : Event → Bool) : Bool → List Event → Bool
  | _, [] => true
  | _, .mutex_lock _ :: es => guarded P true es
  | _, .mutex_unlock _ :: es => guarded P false es
  | held, e :: es => (!P e || held) && guarded P held es

/-- Scanning the log from a point where the slot mutex is held or not (`held`): every event
selected by `P` happens while the mutex is not held. -/
def unguarded (P : Event → Bool) : Bool → List Event → Bool
  | _, [] => true
  | _, .mutex_lock _ :: es => unguarded P true es
  | _, .mutex_unlock _ :: es => unguarded P false es
  | held, e :: es => (!P e || !held) && unguarded P held es

/-- The index into `pglobal->in[]` an event refers to, for the events that refer to a slot. -/
def event_slot : Event → Option Int
  | .free n => some n
  | .mutex_lock n => some n
  | .set_size n _ => some n
  | .memcpy n _ => some n
  | .set_timestamp n _ => some n
  | .cond_broadcast n => some n
  | .mutex_unlock n => some n
  | _ => none

/-- The events one pass of the loop body on `s` appends to the log, up to its return or up
to the point where it is aborted. -/
def iteration_events (w : Nat) (s : State) (p : Poll) : List Event :=
  (outcome_state (worker_iteration w s p)).trace.drop s.trace.length

/-- The slot's `size` when one pass from `s` ends, by return or by abort. -/
def size_at_end (w : Nat) (s : State) (p : Poll) : Option Int :=
  (slot (outcome_state (worker_iteration w s p))).map fun sl => sl.size

/-- Whether one pass from `s` returns to the loop. -/
def returns (w : Nat) (s : State) (p : Poll) : Bool :=
  match worker_iteration w s p with
  | .ok _ => true
  | .error _ => false

/-- The slot's `size` after the first `n` passes from `s`. -/
def size_after (w : Nat) (polls : Nat → Poll) (s : State) (n : Nat) : Option Int :=
  match iterations w polls 0 n s with
  | .ok s1 => (slot s1).map fun sl => sl.size
  | .error _ => none

/-- The byte at offset `off` of the slot's buffer after one pass from `s`. -/
def byte_after (w : Nat) (s : State) (p : Poll) (off : Nat) : Option UInt8 :=
  match worker_iteration w s p with
  | .ok s1 => ((slot s1).bind fun sl => sl.buf).map fun b => b.bytes off
  | .error _ => none

/-- The scenario of the spec: the source yields frames of sizes 1024, 0, 2048, 500000. -/
def scenario (i : Nat) : Poll :=
  ([frame 1024 1 1, frame 0 2 2, frame 2048 3 3, frame 500000 4 4] : List Poll).getD i
    (frame 0 0 0)

/-! ## One pass through the loop body -/

theorem worker_iteration_skip (w : Nat) (s : State) (p : Poll) (g : globals)
    (hg : s.pglobal = some g) (h0 : p.memlen = 0) :
    worker_iteration w s p =
      .ok { s with buffer_ := p.scratch, trace := s.trace ++ skip_events s.plugin_number p } := by
  simp [worker_iteration, hg, h0, log, skip_events]

theorem worker_iteration_publish (w : Nat) (s : State) (p : Poll) (g : globals) (b : Block)
    (hg : s.pglobal = some g) (hb : (g.in_ s.plugin_number).buf = some b)
    (h0 : p.memlen ≠ 0)
    (hc : memcpy_completes w (b.cap + b.behind) (maxsize_.toNat + s.buffer_behind)
      (size_t_of_int w p.memlen) = true) :
    ∃ s1 g1, worker_iteration w s p = .ok s1 ∧ s1.pglobal = some g1 ∧
      s1.plugin_number = s.plugin_number ∧ s1.first_run = s.first_run ∧
      s1.buffer_behind = s.buffer_behind ∧
      s1.trace = s.trace ++ publish_events w s.plugin_number p ∧
      g1.in_ s.plugin_number =
        { buf := some { b with bytes := fun i =>
            if i < size_t_of_int w p.memlen then p.scratch i else b.bytes i },
          size := p.memlen, timestamp := p.now } ∧
      ∀ j, j ≠ s.plugin_number → g1.in_ j = g.in_ j := by
  simp [worker_iteration, hg, hb, h0, log, set_in, publish_events, memcpy, hc]
  intro j hj
  simp [hj]

theorem worker_iteration_fault (w : Nat) (s : State) (p : Poll) (g : globals) (b : Block)
    (hg : s.pglobal = some g) (hb : (g.in_ s.plugin_number).buf = some b)
    (h0 : p.memlen ≠ 0)
    (hc : memcpy_completes w (b.cap + b.behind) (maxsize_.toNat + s.buffer_behind)
      (size_t_of_int w p.memlen) = false) :
    ∃ s1 g1, worker_iteration w s p = .error (.segfault s1) ∧ s1.pglobal = some g1 ∧
      s1.plugin_number = s.plugin_number ∧
      s1.trace = s.trace ++ fault_events w s.plugin_number p ∧
      (g1.in_ s.plugin_number).size = p.memlen := by
  simp [worker_iteration, hg, hb, h0, log, set_in, fault_events, memcpy, hc]

theorem ready_iff (s : State) :
    ready s = true ↔ ∃ g b, s.pglobal = some g ∧ (g.in_ s.plugin_number).buf = some b := by
  unfold ready
  cases hg : s.pglobal with
  | none => simp
  | some g =>
    cases hb : (g.in_ s.plugin_number).buf with
    | none => simp [hb]
    | some b => simp [hb]

theorem slot_mapped_eq (s : State) (g : globals) (b : Block) (hg : s.pglobal = some g)
    (hb : (g.in_ s.plugin_number).buf = some b) : slot_mapped s = b.cap + b.behind := by
  simp [slot_mapped, slot, hg, hb]

/-- The test `copy_fits` only looks at the extent of mapped memory. -/
theorem copy_fits_congr (w : Nat) (s s1 : State) (p : Poll)
    (hm : slot_mapped s1 = slot_mapped s) (hb : s1.buffer_behind = s.buffer_behind) :
    copy_fits w s1 p = copy_fits w s p := by
  simp [copy_fits, hm, hb]

/-- A pass on a ready state whose copy fits returns, and leaves a ready state with the same
statics `plugin_number` and `first_run`, the same extent of mapped memory, and exactly one
more read in the log. -/
theorem worker_iteration_ready (w : Nat) (s : State) (p : Poll) (hr : ready s = true)
    (hf : copy_fits w s p = true) :
    ∃ s1, worker_iteration w s p = .ok s1 ∧ ready s1 = true ∧
      s1.plugin_number = s.plugin_number ∧ s1.first_run = s.first_run ∧
      s1.trace.countP isRead = s.trace.countP isRead + 1 ∧
      slot_mapped s1 = slot_mapped s ∧ s1.buffer_behind = s.buffer_behind := by
  obtain ⟨g, b, hg, hb⟩ := (ready_iff s).1 hr
  by_cases h0 : p.memlen = 0
  · refine ⟨_, worker_iteration_skip w s p g hg h0, ?_, rfl, rfl, ?_, ?_, rfl⟩
    · exact (ready_iff _).2 ⟨g, b, hg, hb⟩
    · simp [skip_events, List.countP_append, List.countP_cons, isRead]
    · simp [slot_mapped, slot]
  · have hc : memcpy_completes w (b.cap + b.behind) (maxsize_.toNat + s.buffer_behind)
        (size_t_of_int w p.memlen) = true := by
      simpa [copy_fits, h0, slot_mapped_eq s g b hg hb] using hf
    obtain ⟨s1, g1, hs1, hg1, hn, hfr, hbb, htr, hslot, _⟩ :=
      worker_iteration_publish w s p g b hg hb h0 hc
    refine ⟨s1, hs1, ?_, hn, hfr, ?_, ?_, hbb⟩
    · exact (ready_iff _).2 ⟨g1, _, hg1, by rw [hn, hslot]⟩
    · rw [htr]
      simp [publish_events, List.countP_append, List.countP_cons, isRead]
    · rw [slot_mapped_eq s g b hg hb]
      rw [slot_mapped_eq s1 g1 _ hg1 (by rw [hn, hslot])]

theorem iterations_snoc (w : Nat) (polls : Nat → Poll) (n : Nat) :
    ∀ (i : Nat) (s : State), iterations w polls i (n + 1) s =
      match iterations w polls i n s with
      | .error e => .error e
      | .ok s1 => worker_iteration w s1 (polls (i + n)) := by
  induction n with
  | zero =>
    intro i s
    simp only [iterations, Nat.add_zero]
    cases worker_iteration w s (polls i) <;> rfl
  | succ n ih =>
    intro i s
    rw [iterations]
    cases h : worker_iteration w s (polls i) with
    | error e => simp [iterations, h]
    | ok s1 =>
      simp only []
      rw [ih (i + 1) s1]
      conv_rhs => rw [iterations]
      simp only [h]
      have : i + 1 + n = i + (n + 1) := by omega
      rw [this]

theorem iterations_ready (w : Nat) (polls : Nat → Poll) (n : Nat) :
    ∀ (i : Nat) (s : State), ready s = true →
      (∀ j, j < n → copy_fits w s (polls (i + j)) = true) →
      ∃ s1, iterations w polls i n s = .ok s1 ∧ ready s1 = true ∧
        s1.plugin_number = s.plugin_number ∧ s1.first_run = s.first_run ∧
        s1.trace.countP isRead = s.trace.countP isRead + n ∧
        slot_mapped s1 = slot_mapped s ∧ s1.buffer_behind = s.buffer_behind := by
  induction n with
  | zero =>
    intro i s hr _
    exact ⟨s, rfl, hr, rfl, rfl, rfl, rfl, rfl⟩
  | succ n ih =>
    intro i s hr hf
    obtain ⟨s1, h1, hr1, hn1, hf1, hc1, hm1, hb1⟩ :=
      worker_iteration_ready w s (polls i) hr (by simpa using hf 0 (by omega))
    obtain ⟨s2, h2, hr2, hn2, hf2, hc2, hm2, hb2⟩ := ih (i + 1) s1 hr1 (fun j hj => by
      rw [copy_fits_congr w s s1 _ hm1 hb1, show i + 1 + j = i + (j + 1) by omega]
      exact hf (j + 1) (by omega))
    refine ⟨s2, ?_, hr2, hn2.trans hn1, hf2.trans hf1, ?_, hm2.trans hm1, hb2.trans hb1⟩
    · simp [iterations, h1, h2]
    · omega

theorem size_t_of_int_pos (w : Nat) (v : Int) (h0 : 0 ≤ v) (h31 : v < 2 ^ 31) (hw : 32 ≤ w) :
    (size_t_of_int w v : Int) = v := by
  have hlt : v < 2 ^ w := by
    have : (2 : Int) ^ 31 ≤ 2 ^ w := pow_le_pow_right₀ (by norm_num) (by omega)
    omega
  unfold size_t_of_int
  rw [Int.emod_eq_of_lt h0 hlt]
  exact Int.toNat_of_nonneg h0

/-! ## C1 -/

/-- C1: take any sequence of polls whose passes `0 .. i` make no copy that leaves mapped
memory (so that pass `i` is reached and completes). After pass `i`, whose read returned a
positive `memlen` (a C `int`, on a target with at least 32-bit `size_t`), the slot's `size`
is `memlen`, the first `memlen` bytes of the slot's buffer are the first `memlen` bytes the
read left in the scratch buffer, and the slot's `timestamp` is the time taken in that
pass. -/
theorem C1_publish_stores_frame (w : Nat) (polls : Nat → Poll) (s : State) (i : Nat)
    (hready : ready s = true) (hw : 32 ≤ w)
    (hfits : ∀ j, j ≤ i → copy_fits w s (polls j) = true)
    (hpos : 0 < (polls i).memlen) (hint : (polls i).memlen < 2 ^ 31) :
    ∃ s1 sl b, iterations w polls 0 (i + 1) s = .ok s1 ∧ slot s1 = some sl ∧
      sl.size = (polls i).memlen ∧
      sl.buf = some b ∧
      (∀ k : Nat, (k : Int) < (polls i).memlen → b.bytes k = (polls i).scratch k) ∧
      sl.timestamp = (polls i).now := by
  obtain ⟨s0, h0, hr0, _, _, _, hm0, hb0⟩ :=
    iterations_ready w polls i 0 s hready (fun j hj => by
      rw [Nat.zero_add]
      exact hfits j (by omega))
  obtain ⟨g, b, hg, hb⟩ := (ready_iff s0).1 hr0
  have hne : (polls i).memlen ≠ 0 := by omega
  have hc : memcpy_completes w (b.cap + b.behind) (maxsize_.toNat + s0.buffer_behind)
      (size_t_of_int w (polls i).memlen) = true := by
    have := hfits i (by omega)
    rw [← copy_fits_congr w s s0 _ hm0 hb0] at this
    simpa [copy_fits, hne, slot_mapped_eq s0 g b hg hb] using this
  obtain ⟨s1, g1, hs1, hg1, hn, _, _, _, hslot, _⟩ :=
    worker_iteration_publish w s0 (polls i) g b hg hb hne hc
  refine ⟨s1, g1.in_ s1.plugin_number,
    { b with bytes := fun k =>
        if k < size_t_of_int w (polls i).memlen then (polls i).scratch k else b.bytes k },
    ?_, ?_, ?_, ?_, ?_, ?_⟩
  · rw [iterations_snoc, h0]
    simpa using hs1
  · simp [slot, hg1]
  · rw [hn, hslot]
  · rw [hn, hslot]
  · intro k hk
    have hk1 : k < size_t_of_int w (polls i).memlen := by
      have := size_t_of_int_pos w (polls i).memlen (by omega) hint hw
      omega
    simp [hk1]
  · rw [hn, hslot]

theorem C1_publish_stores_frame_witness :
    ready (started 0) = true ∧ 32 ≤ 64 ∧
    (∀ j, j ≤ 2 → copy_fits 64 (started 0) ((fun _ => frame 1024 7 5) j) = true) ∧
    0 < ((fun _ => frame 1024 7 5) 2).memlen ∧ ((fun _ => frame 1024 7 5) 2).memlen < 2 ^ 31 ∧
    ∃ s1 sl b, iterations 64 (fun _ => frame 1024 7 5) 0 (2 + 1) (started 0) = .ok s1 ∧
      slot s1 = some sl ∧ sl.size = ((fun _ => frame 1024 7 5) 2).memlen ∧ sl.buf = some b ∧
      (∀ k : Nat, (k : Int) < ((fun _ => frame 1024 7 5) 2).memlen →
        b.bytes k = ((fun _ => frame 1024 7 5) 2).scratch k) ∧
      sl.timestamp = ((fun _ => frame 1024 7 5) 2).now :=
  ⟨by decide, by decide, fun _ _ => rfl, by decide, by decide,
   C1_publish_stores_frame 64 (fun _ => frame 1024 7 5) (started 0) 2
     (by decide) (by decide) (fun _ _ => rfl) (by decide) (by decide)⟩

/-! ## C2 -/

theorem iterations_zero_reads (w : Nat) (polls : Nat → Poll) (n : Nat) :
    ∀ (i : Nat) (s : State) (g : globals), s.pglobal = some g →
      (∀ j, j < n → (polls (i + j)).memlen = 0) →
      ∃ s1 new, iterations w polls i n s = .ok s1 ∧ s1.pglobal = s.pglobal ∧
        s1.plugin_number = s.plugin_number ∧
        s1.trace = s.trace ++ new ∧ ∀ e ∈ new, isBroadcast e = false := by
  induction n with
  | zero =>
    intro i s g _ _
    exact ⟨s, [], rfl, rfl, rfl, by simp, by simp⟩
  | succ n ih =>
    intro i s g hg hz
    have h0 : (polls i).memlen = 0 := by simpa using hz 0 (by omega)
    have hstep := worker_iteration_skip w s (polls i) g hg h0
    obtain ⟨s2, new, h2, hp2, hn2, ht2, hb2⟩ := ih (i + 1)
      { s with buffer_ := (polls i).scratch,
               trace := s.trace ++ skip_events s.plugin_number (polls i) } g hg
      (fun j hj => by
        have := hz (j + 1) (by omega)
        rwa [show i + (j + 1) = i + 1 + j by omega] at this)
    refine ⟨s2, skip_events s.plugin_number (polls i) ++ new, ?_, hp2, hn2, ?_, ?_⟩
    · simp [iterations, hstep, h2]
    · rw [ht2, List.append_assoc]
    · intro e he
      rcases List.mem_append.1 he with h | h
      · simp [skip_events] at h
        rcases h with h | h | h <;> subst h <;> rfl
      · exact hb2 e h

/-- C2: from every state in which `pglobal` is set, `n ≥ 1` consecutive passes whose read
returns `0` all return, leave every slot of the host globals (size, timestamp, buffer pointer
and buffer content) exactly as it was, and add no condition-variable broadcast to the log. -/
theorem C2_zero_reads_leave_slot (w : Nat) (polls : Nat → Poll) (i n : Nat) (s : State)
    (g : globals) (hn : 1 ≤ n) (hg : s.pglobal = some g)
    (hzero : ∀ j, j < n → (polls (i + j)).memlen = 0) :
    ∃ s1 new, iterations w polls i n s = .ok s1 ∧ s1.pglobal = some g ∧
      slot s1 = slot s ∧
      s1.trace = s.trace ++ new ∧ ∀ e ∈ new, isBroadcast e = false := by
  obtain ⟨s1, new, h1, hp, hnum, ht, hb⟩ := iterations_zero_reads w polls n i s g hg hzero
  refine ⟨s1, new, h1, hp.trans hg, ?_, ht, hb⟩
  simp [slot, hp, hnum]

theorem C2_zero_reads_leave_slot_witness :
    1 ≤ 3 ∧ (started 0).pglobal = some (set_in host_globals 0
      { blank_slot with
        buf := some { cap := 256 * 1024, bytes := fun _ => 0, behind := 1024 * 1024 } }) ∧
    (∀ j, j < 3 → ((fun _ => frame 0 9 1) (0 + j)).memlen = 0) ∧
    ∃ s1 new, iterations 64 (fun _ => frame 0 9 1) 0 3 (started 0) = .ok s1 ∧
      s1.pglobal = some (set_in host_globals 0
        { blank_slot with
        buf := some { cap := 256 * 1024, bytes := fun _ => 0, behind := 1024 * 1024 } }) ∧
      slot s1 = slot (started 0) ∧
      s1.trace = (started 0).trace ++ new ∧ ∀ e ∈ new, isBroadcast e = false :=
  ⟨by decide, rfl, fun _ _ => rfl,
   C2_zero_reads_leave_slot 64 (fun _ => frame 0 9 1) 0 3 (started 0) _ (by decide) rfl
     (fun _ _ => rfl)⟩

/-! ## C3 -/

/-- The state `started_with id behind bb` is the one the plugin's own entry points produce. -/
theorem started_reachable (id : Int) (behind bb : Nat) :
    (match input_init (State.initial bb) host_param 0 0 [] with
     | .ok (_, _, s1) => input_run s1 id (some fun _ => 0) behind 0
     | .error e => .error e) = .ok (0, started_with id behind bb) := by
  simp [input_init, option_loop, input_run, State.initial, host_param, log, set_in,
    started_with, host_globals, blank_slot]

/-- C3 (the code at the failing input): after `input_run 0` has allocated `256 * 1024`
bytes, a pass whose read returns `300000` (within `maxsize_`) publishes: the slot's `size`
becomes `300000`, the byte at offset `256 * 1024` behind the block changes from `0` to the
frame's byte `255`, and a broadcast is issued. On the spec's scenario the sizes after the
four polls are 1024, 1024, 2048, 500000. That is the run in a process with writable memory
behind the block; where the block ends at the end of its mapping, the same pass has set
`size` to `300000` when it dies inside `memcpy`, without a broadcast and without return. -/
theorem C3_oversized_frame_is_copied :
    (300000 : Int) ≤ maxsize_ ∧
    size_after 64 (fun _ => frame 300000 255 1) (started 0) 1 = some 300000 ∧
    ((slot (started 0)).bind fun sl => sl.buf).map (fun b => (b.cap, b.bytes (256 * 1024)))
      = some (256 * 1024, 0) ∧
    byte_after 64 (started 0) (frame 300000 255 1) (256 * 1024) = some 255 ∧
    (iteration_events 64 (started 0) (frame 300000 255 1)).countP isBroadcast = 1 ∧
    [1, 2, 3, 4].map (size_after 64 scenario (started 0))
      = [some 1024, some 1024, some 2048, some 500000] ∧
    returns 64 (started_with 0 0 0) (frame 300000 255 1) = false ∧
    size_at_end 64 (started_with 0 0 0) (frame 300000 255 1) = some 300000 ∧
    iteration_events 64 (started_with 0 0 0) (frame 300000 255 1) =
      [.mutex_lock 0, .getImageBuffer maxsize_ 300000, .set_size 0 300000,
       .memcpy 0 300000] := by
  refine ⟨by decide, rfl, rfl, ?_, ?_, rfl, rfl, rfl, ?_⟩
  · simp [byte_after, worker_iteration, started, started_with, frame, slot, set_in, log,
      memcpy, memcpy_completes, PTRDIFF_MAX, maxsize_, size_t_of_int, host_globals, blank_slot]
  · simp [iteration_events, outcome_state, worker_iteration, started, started_with, frame,
      set_in, log, memcpy, memcpy_completes, PTRDIFF_MAX, maxsize_, size_t_of_int,
      host_globals, blank_slot, isBroadcast, List.countP_cons]
  · simp [iteration_events, outcome_state, Abort.state, worker_iteration, started_with, frame,
      set_in, log, memcpy, memcpy_completes, PTRDIFF_MAX, maxsize_, size_t_of_int,
      host_globals, blank_slot]

/-! ## C4 -/

theorem worker_cleanup_first_run (s s1 : State) (h : worker_cleanup s = .ok s1) :
    s1.first_run = 0 ∧ s1.trace.countP isFree ≤ s.trace.countP isFree + 1 := by
  unfold worker_cleanup at h
  by_cases hf : s.first_run = 0
  · simp [hf] at h
    subst h
    exact ⟨hf, by omega⟩
  · simp only [hf, if_false] at h
    cases hg : s.pglobal with
    | none => simp [hg] at h
    | some g =>
      simp only [hg] at h
      by_cases hb : (g.in_ s.plugin_number).buf.isSome = true
      · simp only [hb, if_true] at h
        injection h with h
        subst h
        simp [log, List.countP_append, List.countP_cons, isFree]
      · simp only [hb] at h
        injection h with h
        subst h
        simp

theorem worker_cleanup_again (s : State) (h : s.first_run = 0) : worker_cleanup s = .ok s := by
  simp [worker_cleanup, h]

theorem cleanups_again (n : Nat) (s : State) (h : s.first_run = 0) : cleanups n s = .ok s := by
  induction n with
  | zero => rfl
  | succ n ih => simp [cleanups, worker_cleanup_again s h, ih]

/-- C4: `worker_cleanup` is one-shot. For every state and every `n ≥ 1`, invoking it `n` times
in a row gives what invoking it once gives (so twice equals once); it returns whenever
`first_run` is already `0` or `pglobal` is set; when the first invocation returns state `s1`,
it has added at most one `free` to the log and every further invocation returns `s1` itself,
unchanged. -/
theorem C4_cleanup_one_shot (s : State) (n : Nat) (hn : 1 ≤ n) :
    cleanups n s = worker_cleanup s ∧
    cleanups 2 s = cleanups 1 s ∧
    (s.first_run = 0 ∨ s.pglobal.isSome = true → ∃ s1, worker_cleanup s = .ok s1) ∧
    ∀ s1, worker_cleanup s = .ok s1 →
      s1.trace.countP isFree ≤ s.trace.countP isFree + 1 ∧
      worker_cleanup s1 = .ok s1 ∧
      ∀ m, cleanups m s1 = .ok s1 := by
  have key : ∀ m, 1 ≤ m → cleanups m s = worker_cleanup s := by
    intro m hm
    obtain ⟨m, rfl⟩ : ∃ j, m = j + 1 := ⟨m - 1, by omega⟩
    rw [cleanups]
    cases h : worker_cleanup s with
    | error e => rfl
    | ok s1 => exact cleanups_again m s1 (worker_cleanup_first_run s s1 h).1
  refine ⟨key n hn, (key 2 (by omega)).trans (key 1 (by omega)).symm, ?_, ?_⟩
  · intro h
    by_cases hf : s.first_run = 0
    · exact ⟨s, worker_cleanup_again s hf⟩
    · have hp : s.pglobal.isSome = true := h.resolve_left hf
      obtain ⟨g, hg⟩ := Option.isSome_iff_exists.1 hp
      by_cases hb : (g.in_ s.plugin_number).buf.isSome = true
      · exact ⟨log { s with first_run := 0 } [.free s.plugin_number], by
          simp [worker_cleanup, hf, hg, hb]⟩
      · exact ⟨{ s with first_run := 0 }, by simp [worker_cleanup, hf, hg, hb]⟩
  · intro s1 h
    have h1 := worker_cleanup_first_run s s1 h
    exact ⟨h1.2, worker_cleanup_again s1 h1.1, fun m => cleanups_again m s1 h1.1⟩

theorem C4_cleanup_one_shot_witness :
    1 ≤ 3 ∧ cleanups 3 (started 0) = worker_cleanup (started 0) ∧
    cleanups 2 (started 0) = cleanups 1 (started 0) ∧
    ((started 0).first_run = 0 ∨ (started 0).pglobal.isSome = true →
      ∃ s1, worker_cleanup (started 0) = .ok s1) ∧
    ∀ s1, worker_cleanup (started 0) = .ok s1 →
      s1.trace.countP isFree ≤ (started 0).trace.countP isFree + 1 ∧
      worker_cleanup s1 = .ok s1 ∧
      ∀ m, cleanups m s1 = .ok s1 :=
  ⟨by decide, C4_cleanup_one_shot (started 0) 3 (by decide)⟩

/-! ## C5 -/

theorem option_loop_spec (s : State) (opts : List Opt) :
    option_loop s (opts.map getopt_long_only) =
      if opts.any Opt.aborts then (some 1, help s) else (none, s) := by
  induction opts with
  | nil => simp [option_loop]
  | cons o rest ih =>
    cases o <;> simp [option_loop, getopt_long_only, Opt.aborts, ih]

theorem any_aborts_erase (opts : List Opt) :
    (opts.map Opt.erase_arg).any Opt.aborts = opts.any Opt.aborts := by
  induction opts with
  | nil => rfl
  | cons o rest ih =>
    cases o <;> simp [Opt.erase_arg, Opt.aborts, ih]

theorem any_aborts_iff (opts : List Opt) :
    opts.any Opt.aborts = true ↔ ∃ o ∈ opts, o = Opt.h ∨ o = Opt.help ∨ o = Opt.unrecognized := by
  simp only [List.any_eq_true]
  constructor
  · rintro ⟨o, ho, ha⟩
    refine ⟨o, ho, ?_⟩
    cases o <;> simp_all [Opt.aborts]
  · rintro ⟨o, ho, h | h | h⟩ <;> exact ⟨o, ho, by subst h; rfl⟩

theorem input_init_spec (s : State) (param : input_parameter) (plugin_no : Int)
    (opts : List Opt) :
    input_init s param plugin_no 0 (opts.map getopt_long_only) =
      .ok (if opts.any Opt.aborts then
          (1, { param with argv := param.argv.set 0 INPUT_PLUGIN_NAME },
            help { log s [.mutex_init] with controls_mutex := true })
        else
          (0, { param with argv := param.argv.set 0 INPUT_PLUGIN_NAME },
            { log s [.mutex_init] with controls_mutex := true, pglobal := some param.global })) := by
  simp only [input_init, option_loop_spec]
  cases opts.any Opt.aborts <;> rfl

/-- C5: with `pthread_mutex_init` succeeding, `input_init` returns for every option list;
the return value is non-zero exactly when the list holds a help option (`h`, `help`) or an
unrecognized option, and then `pglobal` keeps its old value; otherwise the return value is
`0` and `pglobal` is `param->global`. Two option lists that differ only in the arguments of
their `r` / `resolution` options give the same return value and the same statics. -/
theorem C5_input_init_result (s : State) (param : input_parameter) (plugin_no : Int)
    (opts : List Opt) :
    ∃ rc p1 s1,
      input_init s param plugin_no 0 (opts.map getopt_long_only) = .ok (rc, p1, s1) ∧
      (rc ≠ 0 ↔ ∃ o ∈ opts, o = Opt.h ∨ o = Opt.help ∨ o = Opt.unrecognized) ∧
      (rc ≠ 0 → s1.pglobal = s.pglobal) ∧
      (rc = 0 → s1.pglobal = some param.global) ∧
      ∀ opts2 : List Opt, opts2.map Opt.erase_arg = opts.map Opt.erase_arg →
        input_init s param plugin_no 0 (opts2.map getopt_long_only) = .ok (rc, p1, s1) := by
  have indep : ∀ opts2 : List Opt, opts2.map Opt.erase_arg = opts.map Opt.erase_arg →
      opts2.any Opt.aborts = opts.any Opt.aborts := by
    intro opts2 h
    rw [← any_aborts_erase opts2, h, any_aborts_erase]
  rw [← any_aborts_iff]
  cases ha : opts.any Opt.aborts with
  | true =>
    refine ⟨1, { param with argv := param.argv.set 0 INPUT_PLUGIN_NAME },
      help { log s [.mutex_init] with controls_mutex := true }, ?_, by simp, ?_, by simp, ?_⟩
    · rw [input_init_spec, ha]
      rfl
    · intro _
      rfl
    · intro opts2 h
      rw [input_init_spec, indep opts2 h, ha]
      rfl
  | false =>
    refine ⟨0, { param with argv := param.argv.set 0 INPUT_PLUGIN_NAME },
      { log s [.mutex_init] with controls_mutex := true, pglobal := some param.global },
      ?_, by simp, by simp, ?_, ?_⟩
    · rw [input_init_spec, ha]
      rfl
    · intro _
      rfl
    · intro opts2 h
      rw [input_init_spec, indep opts2 h, ha]
      rfl

/-! ## C6 -/

theorem worker_iteration_ok (w : Nat) (s s1 : State) (p : Poll)
    (h : worker_iteration w s p = .ok s1) :
    ∃ g g1 evs, s.pglobal = some g ∧ s1.pglobal = some g1 ∧
      s1.plugin_number = s.plugin_number ∧
      (∀ j, j ≠ s.plugin_number → g1.in_ j = g.in_ j) ∧
      s1.trace = s.trace ++ evs ∧
      (evs = skip_events s.plugin_number p ∨ evs = publish_events w s.plugin_number p) := by
  cases hg : s.pglobal with
  | none => simp [worker_iteration, hg] at h
  | some g =>
    by_cases h0 : p.memlen = 0
    · rw [worker_iteration_skip w s p g hg h0] at h
      injection h with h
      subst h
      exact ⟨g, g, _, rfl, hg, rfl, fun _ _ => rfl, rfl, Or.inl rfl⟩
    · cases hb : (g.in_ s.plugin_number).buf with
      | none => simp [worker_iteration, hg, h0, hb, set_in] at h
      | some b =>
        cases hc : memcpy_completes w (b.cap + b.behind) (maxsize_.toNat + s.buffer_behind)
            (size_t_of_int w p.memlen) with
        | false =>
          obtain ⟨s2, _, hs2, _⟩ := worker_iteration_fault w s p g b hg hb h0 hc
          rw [hs2] at h
          cases h
        | true =>
          obtain ⟨s2, g1, hs2, hg1, hn, _, _, htr, _, hother⟩ :=
            worker_iteration_publish w s p g b hg hb h0 hc
          rw [hs2] at h
          injection h with h
          subst h
          exact ⟨g, g1, _, rfl, hg1, hn, hother, htr, Or.inr rfl⟩

theorem copy_fits_iff (w : Nat) (s : State) (p : Poll) (g : globals) (b : Block)
    (hg : s.pglobal = some g) (hb : (g.in_ s.plugin_number).buf = some b)
    (h0 : p.memlen ≠ 0) :
    copy_fits w s p = memcpy_completes w (b.cap + b.behind)
      (maxsize_.toNat + s.buffer_behind) (size_t_of_int w p.memlen) := by
  simp [copy_fits, h0, slot_mapped_eq s g b hg hb]

theorem iteration_events_eq (w : Nat) (s : State) (p : Poll) (hr : ready s = true) :
    iteration_events w s p =
      if p.memlen = 0 then skip_events s.plugin_number p
      else if copy_fits w s p = true then publish_events w s.plugin_number p
      else fault_events w s.plugin_number p := by
  obtain ⟨g, b, hg, hb⟩ := (ready_iff s).1 hr
  by_cases h0 : p.memlen = 0
  · simp [iteration_events, outcome_state, worker_iteration_skip w s p g hg h0, h0]
  · have hcf := copy_fits_iff w s p g b hg hb h0
    cases hc : memcpy_completes w (b.cap + b.behind) (maxsize_.toNat + s.buffer_behind)
        (size_t_of_int w p.memlen) with
    | true =>
      obtain ⟨s1, g1, hs1, _, _, _, _, htr, _, _⟩ :=
        worker_iteration_publish w s p g b hg hb h0 hc
      simp [iteration_events, outcome_state, hs1, htr, h0, hcf, hc]
    | false =>
      obtain ⟨s1, g1, hs1, _, _, htr, _⟩ := worker_iteration_fault w s p g b hg hb h0 hc
      simp [iteration_events, outcome_state, Abort.state, hs1, htr, h0, hcf, hc]

theorem returns_eq (w : Nat) (s : State) (p : Poll) (hr : ready s = true) :
    returns w s p = copy_fits w s p := by
  obtain ⟨g, b, hg, hb⟩ := (ready_iff s).1 hr
  by_cases h0 : p.memlen = 0
  · simp [returns, worker_iteration_skip w s p g hg h0, copy_fits, h0]
  · have hcf := copy_fits_iff w s p g b hg hb h0
    cases hc : memcpy_completes w (b.cap + b.behind) (maxsize_.toNat + s.buffer_behind)
        (size_t_of_int w p.memlen) with
    | true =>
      obtain ⟨s1, g1, hs1, _⟩ := worker_iteration_publish w s p g b hg hb h0 hc
      simp [returns, hs1, hcf, hc]
    | false =>
      obtain ⟨s1, g1, hs1, _⟩ := worker_iteration_fault w s p g b hg hb h0 hc
      simp [returns, hs1, hcf, hc]

/-- C7 (as stated, refuted): in the pass on the started plugin that reads a 1024-byte frame,
the events are `mutex_lock, getImageBuffer, ..., mutex_unlock`: the read does not happen
while the mutex is free, it happens after the lock was taken. -/
theorem C7_read_is_not_outside_lock :
    iteration_events 64 (started 0) (frame 1024 7 5) =
      [.mutex_lock 0, .getImageBuffer maxsize_ 1024, .set_size 0 1024, .memcpy 0 1024,
       .gettimeofday, .set_timestamp 0 { tv_sec := 5, tv_usec := 0 }, .printf_frame 1024,
       .cond_broadcast 0, .mutex_unlock 0] ∧
    unguarded isRead false (iteration_events 64 (started 0) (frame 1024 7 5)) = false := by
  have h := iteration_events_eq 64 (started 0) (frame 1024 7 5) rfl
  have hm : (frame 1024 7 5).memlen ≠ 0 := by decide
  have hf : copy_fits 64 (started 0) (frame 1024 7 5) = true := rfl
  rw [if_neg hm, if_pos hf] at h
  rw [h]
  constructor
  · simp [publish_events, started, started_with, frame, size_t_of_int]
  · rfl

/-- C7 (amended): in every pass of `worker_thread` on a ready state the frame-source read is
made inside the slot's critical section: the pass's first event is the lock of the slot
mutex, the second is the read, no unlock follows before the pass ends, a pass that runs to
its end (its copy, if any, stays in mapped memory) ends with the unlock, and every read in
the pass happens while the mutex is held. -/
theorem C7_read_is_inside_lock (w : Nat) (s : State) (p : Poll) (hready : ready s = true) :
    ∃ mid, iteration_events w s p =
        .mutex_lock s.plugin_number :: .getImageBuffer maxsize_ p.memlen ::
          (mid ++ if copy_fits w s p = true then [.mutex_unlock s.plugin_number] else []) ∧
      (∀ e ∈ mid, isUnlock e = false) ∧
      guarded isRead false (iteration_events w s p) = true := by
  rw [iteration_events_eq w s p hready]
  by_cases h0 : p.memlen = 0
  · refine ⟨[], ?_, by simp, ?_⟩
    · simp [h0, skip_events, copy_fits]
    · simp [h0, skip_events, guarded, isRead]
  · cases hf : copy_fits w s p with
    | true =>
      refine ⟨[.set_size s.plugin_number p.memlen,
          .memcpy s.plugin_number (size_t_of_int w p.memlen), .gettimeofday,
          .set_timestamp s.plugin_number p.now, .printf_frame p.memlen,
          .cond_broadcast s.plugin_number], ?_, ?_, ?_⟩
      · simp [h0, publish_events]
      · intro e he
        simp at he
        rcases he with h | h | h | h | h | h <;> subst h <;> rfl
      · simp [h0, publish_events, guarded, isRead]
    | false =>
      refine ⟨[.set_size s.plugin_number p.memlen,
          .memcpy s.plugin_number (size_t_of_int w p.memlen)], ?_, ?_, ?_⟩
      · simp [h0, fault_events]
      · intro e he
        simp at he
        rcases he with h | h <;> subst h <;> rfl
      · simp [h0, fault_events, guarded, isRead]

theorem C7_read_is_inside_lock_witness :
    ready (started 0) = true ∧
    ∃ mid, iteration_events 64 (started 0) (frame 0 7 5) =
        .mutex_lock (started 0).plugin_number :: .getImageBuffer maxsize_ (frame 0 7 5).memlen ::
          (mid ++ if copy_fits 64 (started 0) (frame 0 7 5) = true
            then [.mutex_unlock (started 0).plugin_number] else []) ∧
      (∀ e ∈ mid, isUnlock e = false) ∧
      guarded isRead false (iteration_events 64 (started 0) (frame 0 7 5)) = true :=
  ⟨by decide, C7_read_is_inside_lock 64 (started 0) (frame 0 7 5) (by decide)⟩

/-- C8: in every publishing pass (a pass on a ready state whose read returns a non-zero
length and whose copy stays in mapped memory), the pass's events hold exactly one broadcast;
before it lie the writes of the slot's `size`, buffer and `timestamp` and no unlock; after it
lies only the unlock of the slot mutex (so no slot write); and every slot write of the pass
happens while the mutex is held. -/
theorem C8_broadcast_once_before_unlock (w : Nat) (s : State) (p : Poll)
    (hready : ready s = true) (hpub : p.memlen ≠ 0) (hfits : copy_fits w s p = true) :
    (iteration_events w s p).countP isBroadcast = 1 ∧
    (∃ before,
      iteration_events w s p =
        before ++ [.cond_broadcast s.plugin_number, .mutex_unlock s.plugin_number] ∧
      Event.set_size s.plugin_number p.memlen ∈ before ∧
      Event.memcpy s.plugin_number (size_t_of_int w p.memlen) ∈ before ∧
      Event.set_timestamp s.plugin_number p.now ∈ before ∧
      before.head? = some (.mutex_lock s.plugin_number) ∧
      (∀ e ∈ before, isUnlock e = false ∧ isBroadcast e = false)) ∧
    guarded isSlotWrite false (iteration_events w s p) = true := by
  rw [iteration_events_eq w s p hready, if_neg hpub, if_pos hfits]
  refine ⟨?_, ⟨[.mutex_lock s.plugin_number, .getImageBuffer maxsize_ p.memlen,
      .set_size s.plugin_number p.memlen, .memcpy s.plugin_number (size_t_of_int w p.memlen),
      .gettimeofday, .set_timestamp s.plugin_number p.now, .printf_frame p.memlen], ?_, ?_, ?_,
      ?_, ?_, ?_⟩, ?_⟩
  · simp [publish_events, List.countP_cons, isBroadcast]
  · simp [publish_events]
  · simp
  · simp
  · simp
  · simp
  · intro e he
    simp at he
    rcases he with h | h | h | h | h | h | h <;> subst h <;> exact ⟨rfl, rfl⟩
  · simp [publish_events, guarded, isSlotWrite]

theorem C8_broadcast_once_before_unlock_witness :
    ready (started 0) = true ∧ (frame 2048 3 3).memlen ≠ 0 ∧
    copy_fits 64 (started 0) (frame 2048 3 3) = true ∧
    (iteration_events 64 (started 0) (frame 2048 3 3)).countP isBroadcast = 1 ∧
    (∃ before,
      iteration_events 64 (started 0) (frame 2048 3 3) =
        before ++ [.cond_broadcast (started 0).plugin_number,
          .mutex_unlock (started 0).plugin_number] ∧
      Event.set_size (started 0).plugin_number (frame 2048 3 3).memlen ∈ before ∧
      Event.memcpy (started 0).plugin_number (size_t_of_int 64 (frame 2048 3 3).memlen)
        ∈ before ∧
      Event.set_timestamp (started 0).plugin_number (frame 2048 3 3).now ∈ before ∧
      before.head? = some (.mutex_lock (started 0).plugin_number) ∧
      (∀ e ∈ before, isUnlock e = false ∧ isBroadcast e = false)) ∧
    guarded isSlotWrite false (iteration_events 64 (started 0) (frame 2048 3 3)) = true :=
  ⟨by decide, by decide, by decide,
   C8_broadcast_once_before_unlock 64 (started 0) (frame 2048 3 3)
     (by decide) (by decide) (by decide)⟩

/-! ## C10 -/

theorem size_t_of_int_neg (w : Nat) (v : Int) (hneg : v < 0) (hlow : -(2 ^ w) ≤ v) :
    (size_t_of_int w v : Int) = v + 2 ^ w := by
  unfold size_t_of_int
  have hpos : (0 : Int) < 2 ^ w := by positivity
  have hmod : v % 2 ^ w = v + 2 ^ w := by
    rw [← Int.add_emod_self]
    exact Int.emod_eq_of_lt (by omega) (by omega)
  rw [hmod]
  exact Int.toNat_of_nonneg (by omega)

/-- A negative C `int` converted to a `size_t` of at least 32 bits is a length beyond
`PTRDIFF_MAX`: no copy of that length completes. -/
theorem copy_fits_neg (w : Nat) (s : State) (p : Poll) (hneg : p.memlen < 0)
    (hint : -(2 ^ 31) ≤ p.memlen) (hw : 32 ≤ w) :
    (size_t_of_int w p.memlen : Int) = p.memlen + 2 ^ w ∧ copy_fits w s p = false := by
  obtain ⟨W, rfl⟩ : ∃ W, w = W + 1 := ⟨w - 1, by omega⟩
  have h31 : (2 : Int) ^ 31 ≤ 2 ^ W := pow_le_pow_right₀ (by norm_num) (by omega)
  have h2 : (2 : Int) ^ (W + 1) = 2 * 2 ^ W := by ring
  have hconv := size_t_of_int_neg (W + 1) p.memlen hneg (by omega)
  refine ⟨hconv, ?_⟩
  have hbig : ¬ size_t_of_int (W + 1) p.memlen ≤ PTRDIFF_MAX (W + 1) := by
    intro hle
    have hpw : 0 < 2 ^ W := by positivity
    have hle1 : size_t_of_int (W + 1) p.memlen + 1 ≤ 2 ^ W := by
      simp only [PTRDIFF_MAX, Nat.add_sub_cancel] at hle
      omega
    have hle2 : (size_t_of_int (W + 1) p.memlen : Int) + 1 ≤ 2 ^ W := by exact_mod_cast hle1
    omega
  have h0 : p.memlen ≠ 0 := by omega
  simp [copy_fits, memcpy_completes, h0, hbig]

/-- C10 (as stated, refuted): on the started plugin, a read that returns `-1` takes the
publish branch, sets `size` to `-1` and asks `memcpy` for `2^64 - 1` bytes (`2^32 - 1` with a
32-bit `size_t`); that call does not complete, the pass does not return and its events hold
no broadcast. -/
theorem C10_negative_length_is_not_broadcast :
    iteration_events 64 (started 0) (frame (-1) 7 5) =
      [.mutex_lock 0, .getImageBuffer maxsize_ (-1), .set_size 0 (-1),
       .memcpy 0 (2 ^ 64 - 1)] ∧
    iteration_events 32 (started 0) (frame (-1) 7 5) =
      [.mutex_lock 0, .getImageBuffer maxsize_ (-1), .set_size 0 (-1),
       .memcpy 0 (2 ^ 32 - 1)] ∧
    size_at_end 64 (started 0) (frame (-1) 7 5) = some (-1) ∧
    returns 64 (started 0) (frame (-1) 7 5) = false ∧
    returns 32 (started 0) (frame (-1) 7 5) = false ∧
    (iteration_events 64 (started 0) (frame (-1) 7 5)).countP isBroadcast = 0 ∧
    (iteration_events 32 (started 0) (frame (-1) 7 5)).countP isBroadcast = 0 := by
  have hm : (frame (-1) 7 5).memlen ≠ 0 := by decide
  have h64 := iteration_events_eq 64 (started 0) (frame (-1) 7 5) rfl
  have h32 := iteration_events_eq 32 (started 0) (frame (-1) 7 5) rfl
  have hf64 : ¬ copy_fits 64 (started 0) (frame (-1) 7 5) = true := by
    rw [(copy_fits_neg 64 (started 0) (frame (-1) 7 5) (by decide) (by decide) (by decide)).2]
    decide
  have hf32 : ¬ copy_fits 32 (started 0) (frame (-1) 7 5) = true := by
    rw [(copy_fits_neg 32 (started 0) (frame (-1) 7 5) (by decide) (by decide) (by decide)).2]
    decide
  rw [if_neg hm, if_neg hf64] at h64
  rw [if_neg hm, if_neg hf32] at h32
  rw [h64, h32]
  refine ⟨?_, ?_, rfl, rfl, rfl, ?_, ?_⟩
  · simp [fault_events, started, started_with, frame, size_t_of_int]
  · simp [fault_events, started, started_with, frame, size_t_of_int]
  · simp [fault_events, List.countP_cons, isBroadcast]
  · simp [fault_events, List.countP_cons, isBroadcast]

/-- C10 (amended): a pass on a ready state takes the publish branch exactly when the read's
return value is non-zero. For every non-zero `memlen`, negative ones included, the pass sets
the slot's `size` to `memlen` and asks `memcpy` for `memlen` converted to `size_t`; it
broadcasts (once) and returns exactly when that copy completes. For a negative `memlen` (a C
`int`, `size_t` of at least 32 bits) the requested length is `memlen + 2^w`, the copy does
not complete, no broadcast is issued and the pass does not return. For `memlen = 0` the pass
only locks, reads and unlocks, and the slot keeps its content. -/
theorem C10_publish_branch_iff_nonzero (w : Nat) (s : State) (p : Poll)
    (hready : ready s = true) :
    (Event.set_size s.plugin_number p.memlen ∈ iteration_events w s p ↔ p.memlen ≠ 0) ∧
    (p.memlen ≠ 0 →
      size_at_end w s p = some p.memlen ∧
      Event.memcpy s.plugin_number (size_t_of_int w p.memlen) ∈ iteration_events w s p) ∧
    ((iteration_events w s p).countP isBroadcast = 1 ↔
      p.memlen ≠ 0 ∧ copy_fits w s p = true) ∧
    ((iteration_events w s p).countP isBroadcast = 0 ↔
      p.memlen = 0 ∨ copy_fits w s p = false) ∧
    returns w s p = copy_fits w s p ∧
    (p.memlen < 0 → -(2 ^ 31) ≤ p.memlen → 32 ≤ w →
      (size_t_of_int w p.memlen : Int) = p.memlen + 2 ^ w ∧
      copy_fits w s p = false ∧ returns w s p = false ∧
      (iteration_events w s p).countP isBroadcast = 0) ∧
    (p.memlen = 0 →
      iteration_events w s p = skip_events s.plugin_number p ∧
      slot (outcome_state (worker_iteration w s p)) = slot s) := by
  obtain ⟨g, b, hg, hb⟩ := (ready_iff s).1 hready
  have hev := iteration_events_eq w s p hready
  have hret := returns_eq w s p hready
  have hcount0 : (iteration_events w s p).countP isBroadcast = 0 ↔
      p.memlen = 0 ∨ copy_fits w s p = false := by
    rw [hev]
    by_cases h0 : p.memlen = 0
    · simp [h0, skip_events, List.countP_cons, isBroadcast]
    · cases hf : copy_fits w s p <;>
        simp [h0, publish_events, fault_events, List.countP_cons, isBroadcast]
  have hcount1 : (iteration_events w s p).countP isBroadcast = 1 ↔
      p.memlen ≠ 0 ∧ copy_fits w s p = true := by
    rw [hev]
    by_cases h0 : p.memlen = 0
    · simp [h0, skip_events, List.countP_cons, isBroadcast]
    · cases hf : copy_fits w s p <;>
        simp [h0, publish_events, fault_events, List.countP_cons, isBroadcast]
  refine ⟨?_, ?_, hcount1, hcount0, hret, ?_, ?_⟩
  · rw [hev]
    by_cases h0 : p.memlen = 0
    · simp [h0, skip_events]
    · cases hf : copy_fits w s p <;> simp [h0, publish_events, fault_events]
  · intro h0
    constructor
    · have hcf := copy_fits_iff w s p g b hg hb h0
      cases hc : memcpy_completes w (b.cap + b.behind) (maxsize_.toNat + s.buffer_behind)
          (size_t_of_int w p.memlen) with
      | true =>
        obtain ⟨s1, g1, hs1, hg1, hn, _, _, _, hslot, _⟩ :=
          worker_iteration_publish w s p g b hg hb h0 hc
        simp [size_at_end, outcome_state, hs1, slot, hg1, hn, hslot]
      | false =>
        obtain ⟨s1, g1, hs1, hg1, hn, _, hsize⟩ :=
          worker_iteration_fault w s p g b hg hb h0 hc
        simp [size_at_end, outcome_state, Abort.state, hs1, slot, hg1, hn, hsize]
    · rw [hev]
      cases hf : copy_fits w s p <;> simp [h0, publish_events, fault_events]
  · intro hneg hint hw
    obtain ⟨hconv, hfalse⟩ := copy_fits_neg w s p hneg hint hw
    exact ⟨hconv, hfalse, hret.trans hfalse, hcount0.2 (Or.inr hfalse)⟩
  · intro h0
    refine ⟨by rw [hev, if_pos h0], ?_⟩
    simp [outcome_state, worker_iteration_skip w s p g hg h0, slot]

theorem C10_publish_branch_iff_nonzero_witness :
    ready (started 0) = true ∧
    (Event.set_size (started 0).plugin_number (frame (-1) 7 5).memlen ∈
        iteration_events 32 (started 0) (frame (-1) 7 5) ↔ (frame (-1) 7 5).memlen ≠ 0) ∧
    ((frame (-1) 7 5).memlen ≠ 0 →
      size_at_end 32 (started 0) (frame (-1) 7 5) = some (frame (-1) 7 5).memlen ∧
      Event.memcpy (started 0).plugin_number (size_t_of_int 32 (frame (-1) 7 5).memlen) ∈
        iteration_events 32 (started 0) (frame (-1) 7 5)) ∧
    ((iteration_events 32 (started 0) (frame (-1) 7 5)).countP isBroadcast = 1 ↔
      (frame (-1) 7 5).memlen ≠ 0 ∧ copy_fits 32 (started 0) (frame (-1) 7 5) = true) ∧
    ((iteration_events 32 (started 0) (frame (-1) 7 5)).countP isBroadcast = 0 ↔
      (frame (-1) 7 5).memlen = 0 ∨ copy_fits 32 (started 0) (frame (-1) 7 5) = false) ∧
    returns 32 (started 0) (frame (-1) 7 5) = copy_fits 32 (started 0) (frame (-1) 7 5) ∧
    ((frame (-1) 7 5).memlen < 0 → -(2 ^ 31) ≤ (frame (-1) 7 5).memlen → 32 ≤ 32 →
      (size_t_of_int 32 (frame (-1) 7 5).memlen : Int) = (frame (-1) 7 5).memlen + 2 ^ 32 ∧
      copy_fits 32 (started 0) (frame (-1) 7 5) = false ∧
      returns 32 (started 0) (frame (-1) 7 5) = false ∧
      (iteration_events 32 (started 0) (frame (-1) 7 5)).countP isBroadcast = 0) ∧
    ((frame (-1) 7 5).memlen = 0 →
      iteration_events 32 (started 0) (frame (-1) 7 5) =
        skip_events (started 0).plugin_number (frame (-1) 7 5) ∧
      slot (outcome_state (worker_iteration 32 (started 0) (frame (-1) 7 5))) =
        slot (started 0)) :=
  ⟨by decide, C10_publish_branch_iff_nonzero 32 (started 0) (frame (-1) 7 5) (by decide)⟩

/-! ## C9 -/

theorem option_loop_statics (rs : List GetoptResult) :
    ∀ (s : State), (option_loop s rs).2.plugin_number = s.plugin_number ∧
      (option_loop s rs).2.pglobal = s.pglobal := by
  induction rs with
  | nil =>
    intro s
    exact ⟨rfl, rfl⟩
  | cons r rest ih =>
    intro s
    unfold option_loop
    split_ifs <;> first | exact ⟨rfl, rfl⟩ | exact ih s

theorem input_init_statics (s : State) (param : input_parameter) (plugin_no mutex_rc : Int)
    (rs : List GetoptResult) (rc : Int) (p1 : input_parameter) (s1 : State)
    (h : input_init s param plugin_no mutex_rc rs = .ok (rc, p1, s1)) :
    s1.plugin_number = s.plugin_number ∧
      (s1.pglobal = s.pglobal ∨ s1.pglobal = some param.global) := by
  unfold input_init at h
  by_cases hm : mutex_rc = 0
  · have hl := option_loop_statics rs { log s [.mutex_init] with controls_mutex := true }
    simp only [hm, ne_eq, not_true_eq_false, if_false] at h
    revert h hl
    cases option_loop { log s [.mutex_init] with controls_mutex := true } rs with
    | mk r s3 =>
      cases r with
      | none =>
        intro hl h
        simp only [Except.ok.injEq, Prod.mk.injEq] at h
        obtain ⟨_, _, h3⟩ := h
        subst h3
        exact ⟨hl.1, Or.inr rfl⟩
      | some r =>
        intro hl h
        simp only [Except.ok.injEq, Prod.mk.injEq] at h
        obtain ⟨_, _, h3⟩ := h
        subst h3
        exact ⟨hl.1, Or.inl hl.2⟩
  · simp [hm] at h

theorem input_run_ok (s : State) (id : Int) (fresh : Option (Nat → UInt8)) (behind : Nat)
    (create_rc r : Int) (s2 : State) (h : input_run s id fresh behind create_rc = .ok (r, s2)) :
    ∃ g bytes, s.pglobal = some g ∧ fresh = some bytes ∧
      s2.pglobal = some (set_in g id
        { g.in_ id with
          buf := some { cap := 256 * 1024, bytes := bytes, behind := behind } }) ∧
      s2.plugin_number = s.plugin_number := by
  unfold input_run at h
  cases hg : s.pglobal with
  | none => simp [hg] at h
  | some g =>
    cases hf : fresh with
    | none => simp [hg, hf, set_in] at h
    | some bytes =>
      by_cases hc : create_rc = 0
      · simp [hg, hf, set_in, hc, log] at h
        refine ⟨g, bytes, rfl, rfl, ?_, ?_⟩
        · rw [← h.2]
          simp [set_in]
        · rw [← h.2]
      · simp [hg, hf, set_in, hc] at h

theorem worker_cleanup_ok (s s1 : State) (h : worker_cleanup s = .ok s1) :
    s1.plugin_number = s.plugin_number ∧ s1.pglobal = s.pglobal ∧
      (s1.trace = s.trace ∨ s1.trace = s.trace ++ [.free s.plugin_number]) := by
  unfold worker_cleanup at h
  by_cases hf : s.first_run = 0
  · simp [hf] at h
    subst h
    exact ⟨rfl, rfl, Or.inl rfl⟩
  · simp only [hf, if_false] at h
    cases hg : s.pglobal with
    | none => simp [hg] at h
    | some g =>
      simp only [hg] at h
      by_cases hb : (g.in_ s.plugin_number).buf.isSome = true
      · simp only [hb, if_true] at h
        injection h with h
        subst h
        exact ⟨rfl, hg.symm ▸ rfl, Or.inr rfl⟩
      · simp only [hb] at h
        injection h with h
        subst h
        exact ⟨rfl, hg.symm ▸ rfl, Or.inl rfl⟩

/-- C9: start from the loader's statics. Whatever `plugin_no` is given to `input_init` and
whatever `id` to `input_run`, when both return, `plugin_number` is still `0`; `input_run` has
stored the new block in slot `id` of the host globals and changed nothing else; every pass of
the worker and the cleanup handler keep `plugin_number = 0`, refer in their events only to
slot `0`, and leave every slot other than `0` untouched. So for `id ≠ 0` the slot the worker
uses is the host's slot `0` as `input_init` received it, not the slot `input_run` allocated. -/
theorem C9_worker_uses_slot_zero (param p1 : input_parameter) (plugin_no mutex_rc rc : Int)
    (rs : List GetoptResult) (s1 : State) (id : Int) (fresh : Option (Nat → UInt8))
    (behind buffer_behind : Nat) (create_rc r2 : Int) (s2 : State)
    (hinit : input_init (State.initial buffer_behind) param plugin_no mutex_rc rs
      = .ok (rc, p1, s1))
    (hrun : input_run s1 id fresh behind create_rc = .ok (r2, s2)) :
    s1.plugin_number = 0 ∧ s2.plugin_number = 0 ∧
    (∃ bytes, fresh = some bytes ∧
      s2.pglobal = some (set_in param.global id
        { param.global.in_ id with
          buf := some { cap := 256 * 1024, bytes := bytes, behind := behind } })) ∧
    (∀ w p s3, worker_iteration w s2 p = .ok s3 →
      s3.plugin_number = 0 ∧
      (∃ evs, s3.trace = s2.trace ++ evs ∧
        ∀ e ∈ evs, event_slot e = none ∨ event_slot e = some 0) ∧
      ∃ g2 g3, s2.pglobal = some g2 ∧ s3.pglobal = some g3 ∧
        ∀ j, j ≠ 0 → g3.in_ j = g2.in_ j) ∧
    (∀ s4, worker_cleanup s2 = .ok s4 →
      s4.plugin_number = 0 ∧ s4.pglobal = s2.pglobal ∧
      (s4.trace = s2.trace ∨ s4.trace = s2.trace ++ [.free 0])) ∧
    (id ≠ 0 → s2.plugin_number ≠ id ∧ slot s2 = some (param.global.in_ 0)) := by
  obtain ⟨hn1, hp1⟩ := input_init_statics _ _ _ _ _ _ _ _ hinit
  have hn1 : s1.plugin_number = 0 := hn1
  obtain ⟨g, bytes, hg, hfresh, hg2, hn2⟩ := input_run_ok _ _ _ _ _ _ _ hrun
  have hn2 : s2.plugin_number = 0 := hn2.trans hn1
  have hgp : g = param.global := by
    rcases hp1 with h | h
    · rw [hg] at h
      exact absurd h (by simp [State.initial])
    · rw [hg] at h
      exact Option.some.inj h
  subst hgp
  refine ⟨hn1, hn2, ⟨bytes, hfresh, hg2⟩, ?_, ?_, ?_⟩
  · intro w p s3 h3
    obtain ⟨g2, g3, evs, hg2', hg3, hn3, hother, htr, hevs⟩ := worker_iteration_ok w s2 s3 p h3
    rw [hn2] at hn3 hother hevs
    refine ⟨hn3, ⟨evs, htr, ?_⟩, g2, g3, hg2', hg3, hother⟩
    intro e he
    rcases hevs with h | h <;> subst h
    · simp [skip_events] at he
      rcases he with h | h | h <;> subst h <;> simp [event_slot]
    · simp [publish_events] at he
      rcases he with h | h | h | h | h | h | h | h | h <;> subst h <;> simp [event_slot]
  · intro s4 h4
    obtain ⟨hn4, hp4, ht4⟩ := worker_cleanup_ok s2 s4 h4
    rw [hn2] at hn4 ht4
    exact ⟨hn4, hp4, ht4⟩
  · intro hid
    refine ⟨by rw [hn2]; exact fun h => hid h.symm, ?_⟩
    have : ¬ (0 = id) := fun h => hid h.symm
    simp [slot, hg2, hn2, set_in, this]

theorem C9_worker_uses_slot_zero_witness :
    input_init (State.initial (1024 * 1024)) host_param 7 0 [] =
      .ok (0, { host_param with argv := host_param.argv.set 0 INPUT_PLUGIN_NAME },
        { State.initial (1024 * 1024) with trace := [.mutex_init], controls_mutex := true,
                                           pglobal := some host_globals }) ∧
    input_run { State.initial (1024 * 1024) with
                  trace := [.mutex_init], controls_mutex := true,
                  pglobal := some host_globals } 3 (some fun _ => 0) (1024 * 1024) 0 =
      .ok (0, started 3) ∧
    ({ State.initial (1024 * 1024) with trace := [.mutex_init], controls_mutex := true,
                                        pglobal := some host_globals } : State).plugin_number
      = 0 ∧
    (started 3).plugin_number = 0 ∧
    (∃ bytes, (some fun _ => 0) = some bytes ∧
      (started 3).pglobal = some (set_in host_param.global 3
        { host_param.global.in_ 3 with
          buf := some { cap := 256 * 1024, bytes := bytes, behind := 1024 * 1024 } })) ∧
    (∀ w p s3, worker_iteration w (started 3) p = .ok s3 →
      s3.plugin_number = 0 ∧
      (∃ evs, s3.trace = (started 3).trace ++ evs ∧
        ∀ e ∈ evs, event_slot e = none ∨ event_slot e = some 0) ∧
      ∃ g2 g3, (started 3).pglobal = some g2 ∧ s3.pglobal = some g3 ∧
        ∀ j, j ≠ 0 → g3.in_ j = g2.in_ j) ∧
    (∀ s4, worker_cleanup (started 3) = .ok s4 →
      s4.plugin_number = 0 ∧ s4.pglobal = (started 3).pglobal ∧
      (s4.trace = (started 3).trace ∨ s4.trace = (started 3).trace ++ [.free 0])) ∧
    ((3 : Int) ≠ 0 → (started 3).plugin_number ≠ 3 ∧
      slot (started 3) = some (host_param.global.in_ 0)) :=
  ⟨rfl, rfl,
   C9_worker_uses_slot_zero host_param
    { host_param with argv := host_param.argv.set 0 INPUT_PLUGIN_NAME } 7 0 0 []
    { State.initial (1024 * 1024) with trace := [.mutex_init], controls_mutex := true,
                                       pglobal := some host_globals }
    3 (some fun _ => 0) (1024 * 1024) (1024 * 1024) 0 0 (started 3) rfl rfl⟩

end InputWyze
